import Mathlib

/-!
Shallow embedding of src/image_download/make_examples.py.

The script has two functions:

* make_polygon_list (the Coverage Indexer): lists a directory, keeps the
  names ending in ".tif", optionally resumes from a previously saved index,
  and appends one (filename, corner polygon) record per tif file.
* make_examples (the Example Extractor): spatially joins point assets with
  the coverage index, and per matched asset crops a randomly offset pixel
  window from the tile, saves a png, and appends a record with a fixed-size
  bounding box, checkpointing the dataset every 50 records and stopping at
  max_length.

Modelling conventions:

* Geographic coordinates are exact rationals, represented by the
  kernel-computable type Frac (an unnormalised numerator/denominator pair);
  no claim compares coordinate values, they are only carried through.
* Library calls are modelled by environment parameters: os.listdir is a
  list of names, gdal.Info is a function from filename to corner
  coordinates or geotransform, gpd.read_file of the resume file is an
  Option (None models both resume_file=None and an unparsable file, which
  the bare except turns into an empty start), shapely containment used by
  gpd.sjoin is a predicate parameter, and band.ReadAsArray success is a
  Bool-valued function of the requested window.
* np.random.randint(low, high) is modelled by a stream of draws
  rand : Nat -> Int -> Int -> Int (call counter, low, high); RandSpec
  states numpy's documented contract that the draw lies in the half-open
  interval [low, high).
* File writes (png saves and GeoJSON checkpoints) are recorded as a trace
  of events; a checkpoint event carries the target path, the number of
  records written, and whether the dataset had been tagged EPSG:4326.
* The local pixel position of each successfully cropped asset and the
  requested block size are recorded as ghost observations (LocalRead);
  they duplicate quantities the code computes but does not store.
-/

/-- Exact rational number as an unnormalised fraction. The Python script
computes with floats; the model uses exact rationals. This bespoke type
(rather than Mathlib's Rat) keeps every operation kernel-computable. -/
structure Frac where
  num : Int
  den : Int
deriving DecidableEq, Repr

/-- Embed an integer as a fraction. -/
def Frac.ofInt (n : Int) : Frac := ⟨n, 1⟩

/-- Fraction subtraction. -/
def Frac.sub (a b : Frac) : Frac := ⟨a.num * b.den - b.num * a.den, a.den * b.den⟩

/-- Fraction addition. -/
def Frac.add (a b : Frac) : Frac := ⟨a.num * b.den + b.num * a.den, a.den * b.den⟩

/-- Fraction multiplication. -/
def Frac.mul (a b : Frac) : Frac := ⟨a.num * b.num, a.den * b.den⟩

/-- Fraction division. -/
def Frac.div (a b : Frac) : Frac := ⟨a.num * b.den, a.den * b.num⟩

/-- Rounding to the nearest integer with ties to even: the semantics of
np.around applied to an exact rational value. -/
def npRound (f : Frac) : Int :=
  let n := if f.den < 0 then -f.num else f.num
  let d := if f.den < 0 then -f.den else f.den
  if d = 0 then 0
  else
    let q := n.fdiv d
    let r := n - q * d
    if 2 * r < d then q
    else if d < 2 * r then q + 1
    else if 2 ∣ q then q else q + 1

/-- Point in geographic coordinates. -/
abbrev GeoPoint := Frac × Frac

/-- Polygon as its list of corner points (the shapely ring, unclosed). -/
abbrev GeoPolygon := List GeoPoint

/-- Corner coordinates of a tile as reported by gdal.Info under the
cornerCoordinates key. -/
structure Corners where
  upperLeft : GeoPoint
  upperRight : GeoPoint
  lowerRight : GeoPoint
  lowerLeft : GeoPoint
deriving DecidableEq, Repr

/-- One row of the coverage GeoDataFrame: tile path and footprint. -/
structure CoverageRecord where
  filename : String
  geometry : GeoPolygon
deriving DecidableEq, Repr

/-- os.path.join for a directory path without a trailing separator. -/
def joinPath (path filename : String) : String := path ++ "/" ++ filename

/-- Python str.endswith applied to the ".tif" suffix. -/
def endsTif (s : String) : Bool := ".tif".data.isSuffixOf s.data

/-- The tif_files list built by make_polygon_list: directory entries whose
name ends in ".tif", joined with the directory path, in listing order. -/
def tifFiles (path : String) (listing : List String) : List String :=
  (listing.filter (fun f => endsTif f)).map (fun f => joinPath path f)

/-- Shapely polygon built from the four gdal corner coordinates in the
order used at lines 52-57 of the source. -/
def cornerPolygon (c : Corners) : GeoPolygon :=
  [c.upperLeft, c.upperRight, c.lowerRight, c.lowerLeft]

/-- Model of make_polygon_list. info models gdal.Info's cornerCoordinates,
listing models os.listdir path, and resume is the parse result of the
resume file (none when resume_file is None or unreadable, in which case
the bare except starts from an empty GeoDataFrame). The final set_crs tag
does not change the rows and is not modelled. -/
def make_polygon_list (info : String → Corners) (listing : List String)
    (path : String) (resume : Option (List CoverageRecord)) : List CoverageRecord :=
  let start := resume.getD []
  start ++ (tifFiles path listing).map (fun f => ⟨f, cornerPolygon (info f)⟩)

/-- One energy-infrastructure asset row: numeric id and point coordinates
(p.xy[0][0] and p.xy[1][0] of its geometry). -/
structure Asset where
  id : Int
  x : Frac
  y : Frac
deriving DecidableEq, Repr

/-- Per-tile data read by gdal.Open and gdal.Info inside make_examples:
the geotransform entries 0, 1, 3, 5 (origin x, pixel width, origin y,
pixel height) and whether ReadAsArray succeeds for a requested window
(x offset, y offset, width, height) on all of the first three bands. -/
structure TileInfo where
  gt0 : Frac
  gt1 : Frac
  gt3 : Frac
  gt5 : Frac
  readOk : Int → Int → Int → Int → Bool

/-- Arguments of make_examples other than the data inputs. -/
structure Config where
  img_path : String
  max_length : Option Int
  height : Int
  width : Int

/-- A record of the examples GeoDataFrame: png name, bbox pixel corners,
and the geographic footprint polygon of the crop. -/
structure ExampleRecord where
  filename : String
  ul_x : Int
  ul_y : Int
  lr_x : Int
  lr_y : Int
  geometry : GeoPolygon
deriving DecidableEq, Repr

/-- Ghost observation of one successful ReadAsArray crop: the asset's
pixel position relative to the window's top-left corner, and the block
size that was requested. -/
structure LocalRead where
  lx : Int
  ly : Int
  w : Int
  h : Int
deriving DecidableEq, Repr

/-- Observable side effects of make_examples: png saves and GeoJSON
dataset writes (path, record count, whether tagged EPSG:4326). -/
inductive Event where
  | savePng (path : String)
  | writeDataset (path : String) (count : Nat) (epsg4326 : Bool)
deriving DecidableEq, Repr

/-- Mutable state threaded through the loops of make_examples. rk counts
np.random.randint draws; crs records whether set_crs(epsg=4326) has been
applied to the dataset. -/
structure RunState where
  dataset : List ExampleRecord
  events : List Event
  rk : Nat
  crs : Bool
  locals : List LocalRead

/-- Hard-coded bbox height (line 175 of the source). -/
def tower_height : Int := 25

/-- Hard-coded bbox width (line 176 of the source). -/
def tower_width : Int := 30

/-- Fixed dataset checkpoint file name (lines 197 and 201). -/
def checkpointName (cfg : Config) : String := cfg.img_path ++ "tower_examples.geojson"

/-- Lower bound of the randint call for one axis: -size//2 + 8 with
Python floor division. -/
def offLow (size : Int) : Int := (-size).fdiv 2 + 8

/-- Exclusive upper bound of the randint call for one axis:
size//2 - 8 with Python floor division. -/
def offHigh (size : Int) : Int := size.fdiv 2 - 8

/-- Support of np.random.randint(offLow size, offHigh size): the half-open
integer interval from offLow size (inclusive) to offHigh size (exclusive). -/
def possibleOffset (size v : Int) : Prop := offLow size ≤ v ∧ v < offHigh size

instance (size v : Int) : Decidable (possibleOffset size v) := by
  unfold possibleOffset
  infer_instance

/-- Contract of the randint stream: every draw with low < high lies in
[low, high). -/
def RandSpec (rand : Nat → Int → Int → Int) : Prop :=
  ∀ n lo hi, lo < hi → lo ≤ rand n lo hi ∧ rand n lo hi < hi

/-- The asset's pixel position in the tile:
np.around((coords - upper_left) / pixel_size) componentwise. -/
def assetPixel (t : TileInfo) (a : Asset) : Int × Int :=
  (npRound ((a.x.sub t.gt0).div t.gt1), npRound ((a.y.sub t.gt3).div t.gt5))

/-- The x offset drawn for the asset whose first randint draw has index k. -/
def offsetX (cfg : Config) (rand : Nat → Int → Int → Int) (k : Nat) : Int :=
  rand k (offLow cfg.width) (offHigh cfg.width)

/-- The y offset drawn for the asset whose first randint draw has index k. -/
def offsetY (cfg : Config) (rand : Nat → Int → Int → Int) (k : Nat) : Int :=
  rand (k + 1) (offLow cfg.height) (offHigh cfg.height)

/-- x of the crop window's top-left pixel: the asset pixel shifted by
width//2 and by the drawn offset. -/
def windowX (cfg : Config) (env : String → TileInfo) (rand : Nat → Int → Int → Int)
    (image : String) (a : Asset) (k : Nat) : Int :=
  (assetPixel (env image) a).1 - cfg.width.fdiv 2 - offsetX cfg rand k

/-- y of the crop window's top-left pixel. -/
def windowY (cfg : Config) (env : String → TileInfo) (rand : Nat → Int → Int → Int)
    (image : String) (a : Asset) (k : Nat) : Int :=
  (assetPixel (env image) a).2 - cfg.height.fdiv 2 - offsetY cfg rand k

/-- Bounding box written into the dataset (lines 174-183): the box around
ul = (width//2, height//2) + offset with half-extents tower_width//2 and
tower_height//2. -/
structure BBox where
  ul_x : Int
  ul_y : Int
  lr_x : Int
  lr_y : Int
deriving DecidableEq, Repr

/-- The bbox of one example as a function of the drawn offsets. -/
def bboxOf (width height offx offy : Int) : BBox :=
  let ulx := width.fdiv 2 + offx
  let uly := height.fdiv 2 + offy
  ⟨ulx - tower_width.fdiv 2, uly - tower_height.fdiv 2,
   ulx + tower_width.fdiv 2, uly + tower_height.fdiv 2⟩

/-- Geographic footprint polygon of the crop (lines 166-172):
img_corner = upper_left + pixels * pixel_size, then the four corners. -/
def imgPolygon (t : TileInfo) (x y width height : Int) : GeoPolygon :=
  let cx := t.gt0.add ((Frac.ofInt x).mul t.gt1)
  let cy := t.gt3.add ((Frac.ofInt y).mul t.gt5)
  [(cx, cy),
   (cx.add (t.gt1.mul (Frac.ofInt width)), cy),
   (cx.add (t.gt1.mul (Frac.ofInt width)), cy.add (t.gt5.mul (Frac.ofInt height))),
   (cx, cy.add (t.gt5.mul (Frac.ofInt height)))]

/-- The dataset record appended for one successfully cropped asset. -/
def newRecord (cfg : Config) (env : String → TileInfo) (rand : Nat → Int → Int → Int)
    (image : String) (a : Asset) (k : Nat) : ExampleRecord :=
  let b := bboxOf cfg.width cfg.height (offsetX cfg rand k) (offsetY cfg rand k)
  { filename := toString a.id
    ul_x := b.ul_x
    ul_y := b.ul_y
    lr_x := b.lr_x
    lr_y := b.lr_y
    geometry := imgPolygon (env image) (windowX cfg env rand image a k)
      (windowY cfg env rand image a k) cfg.width cfg.height }

/-- The ghost observation for one successfully cropped asset. -/
def newLocal (cfg : Config) (env : String → TileInfo) (rand : Nat → Int → Int → Int)
    (image : String) (a : Asset) (k : Nat) : LocalRead :=
  ⟨(assetPixel (env image) a).1 - windowX cfg env rand image a k,
   (assetPixel (env image) a).2 - windowY cfg env rand image a k,
   cfg.width, cfg.height⟩

/-- Test len(dataset) == max_length (false when max_length is None). -/
def capReached (cfg : Config) (n : Nat) : Bool :=
  match cfg.max_length with
  | some m => (n : Int) == m
  | none => false

/-- Lines 161-192: save the png (img.save at line 163) and append the new
record to the dataset; the ghost observation is recorded alongside. -/
def appendState (cfg : Config) (r : ExampleRecord) (g : LocalRead) (st : RunState) : RunState :=
  { st with
    dataset := st.dataset ++ [r]
    events := st.events ++ [Event.savePng (cfg.img_path ++ r.filename ++ ".png")]
    locals := st.locals ++ [g] }

/-- Lines 194-197: when the dataset length is divisible by 50, set_crs
(epsg=4326) and write the dataset to the fixed checkpoint file. -/
def ckptState (cfg : Config) (st : RunState) : RunState :=
  if st.dataset.length % 50 = 0 then
    { st with
      crs := true
      events := st.events ++ [Event.writeDataset (checkpointName cfg) st.dataset.length true] }
  else st

/-- Lines 161-204 after a successful ReadAsArray: save the png, append the
record, checkpoint when the new length is divisible by 50, and when the
new length equals max_length write once more and return from the whole
function (written as Sum.inl). -/
def afterAppend (cfg : Config) (r : ExampleRecord) (g : LocalRead) (st : RunState) :
    RunState ⊕ RunState :=
  let st3 := ckptState cfg (appendState cfg r g st)
  if capReached cfg (appendState cfg r g st).dataset.length then
    Sum.inl { st3 with
      events := st3.events ++ [Event.writeDataset (checkpointName cfg) st3.dataset.length st3.crs] }
  else Sum.inr st3

/-- Lines 136-204, one asset of the inner loop: the two randint draws
always happen (so rk advances by 2 even on failure), then the ReadAsArray
block; the bare except turns a failed read into continue. -/
def processAsset (cfg : Config) (env : String → TileInfo) (rand : Nat → Int → Int → Int)
    (image : String) (a : Asset) (st : RunState) : RunState ⊕ RunState :=
  if (env image).readOk (windowX cfg env rand image a st.rk) (windowY cfg env rand image a st.rk)
      cfg.width cfg.height then
    afterAppend cfg (newRecord cfg env rand image a st.rk) (newLocal cfg env rand image a st.rk)
      { st with rk := st.rk + 2 }
  else Sum.inr { st with rk := st.rk + 2 }

/-- The inner loop over the assets matched to one tile; Sum.inl propagates
the early return. -/
def processAssets (cfg : Config) (env : String → TileInfo) (rand : Nat → Int → Int → Int)
    (image : String) : List Asset → RunState → RunState ⊕ RunState
  | [], st => Sum.inr st
  | a :: rest, st =>
    match processAsset cfg env rand image a st with
    | Sum.inl stp => Sum.inl stp
    | Sum.inr stp => processAssets cfg env rand image rest stp

/-- Rows of gpd.sjoin(assets, coverage, how="inner"): each asset paired
with the filename of every coverage record whose footprint contains it. -/
def sjoinMatches (geoContains : GeoPolygon → GeoPoint → Bool) (assets : List Asset)
    (coverage : List CoverageRecord) : List (Asset × String) :=
  assets.flatMap (fun a =>
    (coverage.filter (fun c => geoContains c.geometry (a.x, a.y))).map (fun c => (a, c.filename)))

/-- The selection assets[assets["filename"] == image] of the joined frame. -/
def matchedAssets (joined : List (Asset × String)) (image : String) : List Asset :=
  (joined.filter (fun pr => pr.2 == image)).map Prod.fst

/-- The outer loop over coverage["filename"]. -/
def processImages (cfg : Config) (env : String → TileInfo) (rand : Nat → Int → Int → Int)
    (joined : List (Asset × String)) : List String → RunState → RunState ⊕ RunState
  | [], st => Sum.inr st
  | image :: rest, st =>
    match processAssets cfg env rand image (matchedAssets joined image) st with
    | Sum.inl stp => Sum.inl stp
    | Sum.inr stp => processImages cfg env rand joined rest stp

/-- Initial state: empty dataset GeoDataFrame, no events, no draws, no CRS. -/
def initState : RunState := ⟨[], [], 0, false, []⟩

/-- Result of one make_examples run: the event trace, the final in-memory
dataset, the ghost observations, the Python return value, and whether the
max_length early return was taken. -/
structure RunResult where
  events : List Event
  dataset : List ExampleRecord
  locals : List LocalRead
  ret : Option (List ExampleRecord)
  capHit : Bool

/-- Model of make_examples. The Python function ends either through the
bare return at line 202 (cap reached) or by falling off the end of the
loops; both yield the return value None, modelled as ret := none. -/
def make_examples (cfg : Config) (env : String → TileInfo) (rand : Nat → Int → Int → Int)
    (geoContains : GeoPolygon → GeoPoint → Bool) (assets : List Asset)
    (coverage : List CoverageRecord) : RunResult :=
  let joined := sjoinMatches geoContains assets coverage
  match processImages cfg env rand joined (coverage.map (fun c => c.filename)) initState with
  | Sum.inl st => ⟨st.events, st.dataset, st.locals, none, true⟩
  | Sum.inr st => ⟨st.events, st.dataset, st.locals, none, false⟩

/-- Multiples of 50 in the half-open interval (a, b]: the dataset lengths
strictly after a and up to b at which the every-50-records checkpoint
fires. -/
def mults50 (a b : Nat) : List Nat :=
  (List.range' (a + 1) (b - a)).filter (fun n => n % 50 == 0)

/-- The dataset-write events of a trace, in order, as
(path, record count, EPSG:4326 tag) triples. -/
def checkpointEvents : List Event → List (String × Nat × Bool)
  | [] => []
  | Event.savePng _ :: es => checkpointEvents es
  | Event.writeDataset p n c :: es => (p, n, c) :: checkpointEvents es

/-- The dataset-write event emitted when the in-memory dataset has n
records: fixed path, count n, and the CRS tag (set iff some checkpoint at
a multiple of 50 has already happened, i.e. iff 50 ≤ n). -/
def ckptEntry (cfg : Config) (n : Nat) : String × Nat × Bool :=
  (checkpointName cfg, n, decide (50 ≤ n))

/-- Invariant tying the CRS flag to the dataset length: set_crs has run
iff some append reached a multiple of 50, i.e. iff the length reached 50. -/
def CrsInv (st : RunState) : Prop := st.crs = decide (50 ≤ st.dataset.length)

/-- Every dataset record or ghost observation new in st' relative to st
comes from some processed asset. -/
def NewItems (cfg : Config) (env : String → TileInfo) (rand : Nat → Int → Int → Int)
    (st st' : RunState) : Prop :=
  (∀ r ∈ st'.dataset, r ∈ st.dataset ∨ ∃ image a k, r = newRecord cfg env rand image a k) ∧
  (∀ g ∈ st'.locals, g ∈ st.locals ∨ ∃ image a k, g = newLocal cfg env rand image a k)

/-- Summary of a loop segment that finished without the early return:
lengths grow, the CRS invariant is preserved, the new dataset writes are
exactly the multiples of 50 reached, and new items come from assets. -/
def SegOk (cfg : Config) (env : String → TileInfo) (rand : Nat → Int → Int → Int)
    (st st' : RunState) : Prop :=
  st.dataset.length ≤ st'.dataset.length ∧
  CrsInv st' ∧
  checkpointEvents st'.events = checkpointEvents st.events ++
    (mults50 st.dataset.length st'.dataset.length).map (ckptEntry cfg) ∧
  NewItems cfg env rand st st'

/-- Summary of a loop segment that hit max_length: as SegOk, with one
final dataset write appended, the cap test true at the final length, and
that final write being the very last event. -/
def SegStop (cfg : Config) (env : String → TileInfo) (rand : Nat → Int → Int → Int)
    (st st' : RunState) : Prop :=
  st.dataset.length ≤ st'.dataset.length ∧
  checkpointEvents st'.events = checkpointEvents st.events ++
    (mults50 st.dataset.length st'.dataset.length).map (ckptEntry cfg) ++
    [ckptEntry cfg st'.dataset.length] ∧
  NewItems cfg env rand st st' ∧
  capReached cfg st'.dataset.length = true ∧
  st'.events.getLast? =
    some (Event.writeDataset (checkpointName cfg) st'.dataset.length
      (decide (50 ≤ st'.dataset.length)))

/-- Deterministic draw stream that yields v whenever v is in range and
the lower bound otherwise; satisfies RandSpec and realises a chosen
admissible offset. -/
def randConst (v : Int) : Nat → Int → Int → Int :=
  fun _ lo hi => if lo ≤ v ∧ v < hi then v else lo

/-- Concrete corner coordinates for test runs. -/
def corners0 : Corners :=
  ⟨(⟨0, 1⟩, ⟨0, 1⟩), (⟨1, 1⟩, ⟨0, 1⟩), (⟨1, 1⟩, ⟨1, 1⟩), (⟨0, 1⟩, ⟨1, 1⟩)⟩

/-- Concrete gdal.Info environment for test runs of the indexer. -/
def info0 : String → Corners := fun _ => corners0

/-- Concrete tile for test runs: origin (0, 0), pixel size (1, -1),
every ReadAsArray succeeds. -/
def tile0 : TileInfo := ⟨⟨0, 1⟩, ⟨1, 1⟩, ⟨0, 1⟩, ⟨-1, 1⟩, fun _ _ _ _ => true⟩

/-- Concrete tile whose ReadAsArray always fails. -/
def tileF : TileInfo := ⟨⟨0, 1⟩, ⟨1, 1⟩, ⟨0, 1⟩, ⟨-1, 1⟩, fun _ _ _ _ => false⟩

/-- Environment mapping every tile path to tile0. -/
def env0 : String → TileInfo := fun _ => tile0

/-- Environment mapping every tile path to tileF. -/
def envF : String → TileInfo := fun _ => tileF

/-- Concrete asset with id 7 at geographic coordinates (100, -100),
i.e. at pixel (100, 100) of tile0. -/
def asset0 : Asset := ⟨7, ⟨100, 1⟩, ⟨-100, 1⟩⟩

/-- Concrete one-tile coverage index. -/
def cov0 : CoverageRecord := ⟨"t.tif", []⟩

/-- Containment predicate that always matches (the concrete asset lies in
the concrete tile). -/
def containsAll : GeoPolygon → GeoPoint → Bool := fun _ _ => true

/-- Extractor configuration with the default 512 x 512 window and
max_length 1. -/
def cfg512 : Config := ⟨"out/", some 1, 512, 512⟩

/-- Extractor configuration with an odd window width of 511. -/
def cfg511 : Config := ⟨"out/", some 1, 512, 511⟩

/-- One concrete extractor run over tile0 with both offsets drawn as v
when admissible. -/
def run512 (v : Int) : RunResult :=
  make_examples cfg512 env0 (randConst v) containsAll [asset0] [cov0]

/-- One concrete extractor run with odd window width 511 and offsets
drawn as -248 (admissible, since offLow 511 = -248). -/
def run511 : RunResult :=
  make_examples cfg511 env0 (randConst (-248)) containsAll [asset0] [cov0]

/-- Concrete resume index already containing the directory's single tif
file, for exercising make_polygon_list resumption. -/
def resume0 : List CoverageRecord := [⟨joinPath "imgs" "a.tif", cornerPolygon corners0⟩]

/-! Helper lemmas about the trace machinery. -/

theorem fdiv_two (a : Int) : a.fdiv 2 = a / 2 :=
  Int.fdiv_eq_ediv a (by norm_num)

theorem checkpointEvents_append (l1 l2 : List Event) :
    checkpointEvents (l1 ++ l2) = checkpointEvents l1 ++ checkpointEvents l2 := by
  induction l1 with
  | nil => rfl
  | cons e es ih => cases e <;> simp [checkpointEvents, ih]

theorem mults50_refl (a : Nat) : mults50 a a = [] := by
  simp [mults50]

theorem mults50_succ (a : Nat) :
    mults50 a (a + 1) = if (a + 1) % 50 = 0 then [a + 1] else [] := by
  have h : a + 1 - a = 1 := by omega
  rw [mults50, h, List.range'_one]
  by_cases hm : (a + 1) % 50 = 0 <;> simp [hm]

theorem mults50_append (a b c : Nat) (hab : a ≤ b) (hbc : b ≤ c) :
    mults50 a b ++ mults50 b c = mults50 a c := by
  rw [mults50, mults50, mults50, ← List.filter_append]
  congr 1
  have h1 : b + 1 = (a + 1) + 1 * (b - a) := by omega
  rw [h1, List.range'_append]
  congr 1
  omega

theorem mem_mults50 (a b n : Nat) : n ∈ mults50 a b ↔ a < n ∧ n ≤ b ∧ n % 50 = 0 := by
  simp only [mults50, List.mem_filter, List.mem_range'_1, beq_iff_eq]
  omega

theorem crsInv_init : CrsInv initState := by
  simp [CrsInv, initState]

theorem appendState_length (cfg : Config) (r : ExampleRecord) (g : LocalRead) (st : RunState) :
    (appendState cfg r g st).dataset.length = st.dataset.length + 1 := by
  simp [appendState]

theorem ckptState_of_mod (cfg : Config) (st : RunState) (hn : st.dataset.length % 50 = 0) :
    ckptState cfg st =
      { st with
        crs := true
        events := st.events ++ [Event.writeDataset (checkpointName cfg) st.dataset.length true] } := by
  simp [ckptState, hn]

theorem ckptState_of_not_mod (cfg : Config) (st : RunState) (hn : ¬ st.dataset.length % 50 = 0) :
    ckptState cfg st = st := by
  simp [ckptState, hn]

theorem appendState_dataset (cfg : Config) (r : ExampleRecord) (g : LocalRead) (st : RunState) :
    (appendState cfg r g st).dataset = st.dataset ++ [r] := rfl

theorem appendState_locals (cfg : Config) (r : ExampleRecord) (g : LocalRead) (st : RunState) :
    (appendState cfg r g st).locals = st.locals ++ [g] := rfl

theorem appendState_events (cfg : Config) (r : ExampleRecord) (g : LocalRead) (st : RunState) :
    (appendState cfg r g st).events =
      st.events ++ [Event.savePng (cfg.img_path ++ r.filename ++ ".png")] := rfl

theorem appendState_crs (cfg : Config) (r : ExampleRecord) (g : LocalRead) (st : RunState) :
    (appendState cfg r g st).crs = st.crs := rfl

theorem afterAppend_inr (cfg : Config) (r : ExampleRecord) (g : LocalRead) (st st' : RunState)
    (hcrs : CrsInv st) (h : afterAppend cfg r g st = Sum.inr st') :
    st'.dataset = st.dataset ++ [r] ∧ st'.locals = st.locals ++ [g] ∧
    CrsInv st' ∧
    checkpointEvents st'.events = checkpointEvents st.events ++
      (mults50 st.dataset.length st'.dataset.length).map (ckptEntry cfg) := by
  simp only [afterAppend] at h
  split at h
  · simp at h
  · injection h with h2
    subst h2
    have hlen : (st.dataset ++ [r]).length = st.dataset.length + 1 := by simp
    by_cases hn : (st.dataset.length + 1) % 50 = 0
    · have hmod : (appendState cfg r g st).dataset.length % 50 = 0 := by
        rw [appendState_length]
        exact hn
      have h50 : 50 ≤ st.dataset.length + 1 := by omega
      have h49 : 49 ≤ st.dataset.length := by omega
      rw [ckptState_of_mod cfg _ hmod]
      refine ⟨rfl, rfl, ?_, ?_⟩
      · simp [CrsInv, appendState_dataset, hlen, decide_eq_true h50, h49]
      · simp [appendState_dataset, appendState_events, appendState_length, hlen,
          checkpointEvents_append, checkpointEvents, mults50_succ, hn, ckptEntry,
          decide_eq_true h50, h49]
    · have hmod : ¬ (appendState cfg r g st).dataset.length % 50 = 0 := by
        rw [appendState_length]
        exact hn
      rw [ckptState_of_not_mod cfg _ hmod]
      refine ⟨rfl, rfl, ?_, ?_⟩
      · simp only [CrsInv, appendState_crs, appendState_dataset, hlen]
        rw [hcrs, decide_eq_decide]
        omega
      · simp [appendState_dataset, appendState_events, appendState_length, hlen,
          checkpointEvents_append, checkpointEvents, mults50_succ, hn]

theorem afterAppend_inl (cfg : Config) (r : ExampleRecord) (g : LocalRead) (st st' : RunState)
    (hcrs : CrsInv st) (h : afterAppend cfg r g st = Sum.inl st') :
    st'.dataset = st.dataset ++ [r] ∧ st'.locals = st.locals ++ [g] ∧
    checkpointEvents st'.events = checkpointEvents st.events ++
      (mults50 st.dataset.length st'.dataset.length).map (ckptEntry cfg) ++
      [ckptEntry cfg st'.dataset.length] ∧
    capReached cfg st'.dataset.length = true ∧
    st'.events.getLast? =
      some (Event.writeDataset (checkpointName cfg) st'.dataset.length
        (decide (50 ≤ st'.dataset.length))) := by
  simp only [afterAppend] at h
  split at h
  case isTrue hcap =>
    injection h with h2
    subst h2
    have hlen : (st.dataset ++ [r]).length = st.dataset.length + 1 := by simp
    by_cases hn : (st.dataset.length + 1) % 50 = 0
    · have hmod : (appendState cfg r g st).dataset.length % 50 = 0 := by
        rw [appendState_length]
        exact hn
      have h50 : 50 ≤ st.dataset.length + 1 := by omega
      have h49 : 49 ≤ st.dataset.length := by omega
      rw [ckptState_of_mod cfg _ hmod]
      refine ⟨rfl, rfl, ?_, ?_, ?_⟩
      · simp [appendState_dataset, appendState_events, appendState_length, hlen,
          checkpointEvents_append, checkpointEvents, mults50_succ, hn, ckptEntry,
          decide_eq_true h50, h49]
      · simpa [appendState_dataset, appendState_length, hlen] using hcap
      · simp [appendState_dataset, appendState_length, hlen, List.getLast?_concat,
          ckptEntry, decide_eq_true h50, h49]
    · have hmod : ¬ (appendState cfg r g st).dataset.length % 50 = 0 := by
        rw [appendState_length]
        exact hn
      have hdec : decide (50 ≤ st.dataset.length) = decide (50 ≤ st.dataset.length + 1) := by
        rw [decide_eq_decide]
        omega
      rw [ckptState_of_not_mod cfg _ hmod]
      simp only [CrsInv] at hcrs
      refine ⟨rfl, rfl, ?_, ?_, ?_⟩
      · simp [appendState_dataset, appendState_events, appendState_length, appendState_crs, hlen,
          checkpointEvents_append, checkpointEvents, mults50_succ, hn, ckptEntry, hcrs, hdec]
      · simpa [appendState_dataset, appendState_length, hlen] using hcap
      · simp [appendState_dataset, appendState_length, appendState_crs, hlen,
          List.getLast?_concat, ckptEntry, hcrs, hdec]
  case isFalse hcap =>
    simp at h

theorem NewItems_refl (cfg : Config) (env : String → TileInfo) (rand : Nat → Int → Int → Int)
    (st : RunState) : NewItems cfg env rand st st :=
  ⟨fun _ hr => Or.inl hr, fun _ hg => Or.inl hg⟩

theorem NewItems_trans (cfg : Config) (env : String → TileInfo) (rand : Nat → Int → Int → Int)
    (st1 st2 st3 : RunState) (h1 : NewItems cfg env rand st1 st2)
    (h2 : NewItems cfg env rand st2 st3) : NewItems cfg env rand st1 st3 := by
  constructor
  · intro r hr
    rcases h2.1 r hr with hin | hnew
    · exact h1.1 r hin
    · exact Or.inr hnew
  · intro g hg
    rcases h2.2 g hg with hin | hnew
    · exact h1.2 g hin
    · exact Or.inr hnew

theorem SegOk_refl (cfg : Config) (env : String → TileInfo) (rand : Nat → Int → Int → Int)
    (st : RunState) (hcrs : CrsInv st) : SegOk cfg env rand st st :=
  ⟨le_refl _, hcrs, by simp [mults50_refl], NewItems_refl cfg env rand st⟩

theorem SegOk_trans (cfg : Config) (env : String → TileInfo) (rand : Nat → Int → Int → Int)
    (st1 st2 st3 : RunState) (h1 : SegOk cfg env rand st1 st2)
    (h2 : SegOk cfg env rand st2 st3) : SegOk cfg env rand st1 st3 := by
  obtain ⟨l1, c1, e1, n1⟩ := h1
  obtain ⟨l2, c2, e2, n2⟩ := h2
  refine ⟨le_trans l1 l2, c2, ?_, NewItems_trans cfg env rand st1 st2 st3 n1 n2⟩
  rw [e2, e1, List.append_assoc, ← List.map_append,
    mults50_append st1.dataset.length st2.dataset.length st3.dataset.length l1 l2]

theorem SegOk_stop (cfg : Config) (env : String → TileInfo) (rand : Nat → Int → Int → Int)
    (st1 st2 st3 : RunState) (h1 : SegOk cfg env rand st1 st2)
    (h2 : SegStop cfg env rand st2 st3) : SegStop cfg env rand st1 st3 := by
  obtain ⟨l1, c1, e1, n1⟩ := h1
  obtain ⟨l2, e2, n2, cap2, last2⟩ := h2
  refine ⟨le_trans l1 l2, ?_, NewItems_trans cfg env rand st1 st2 st3 n1 n2, cap2, last2⟩
  rw [e2, e1]
  rw [List.append_assoc (checkpointEvents st1.events), ← List.map_append,
    mults50_append st1.dataset.length st2.dataset.length st3.dataset.length l1 l2]

theorem processAsset_inr (cfg : Config) (env : String → TileInfo) (rand : Nat → Int → Int → Int)
    (image : String) (a : Asset) (st st' : RunState) (hcrs : CrsInv st)
    (h : processAsset cfg env rand image a st = Sum.inr st') :
    SegOk cfg env rand st st' := by
  unfold processAsset at h
  split at h
  · have hc2 : CrsInv { st with rk := st.rk + 2 } := hcrs
    obtain ⟨hd, hl, hcrsp, hck⟩ := afterAppend_inr cfg _ _ _ st' hc2 h
    refine ⟨?_, hcrsp, hck, ?_, ?_⟩
    · rw [hd]
      simp
    · intro x hx
      rw [hd] at hx
      rcases List.mem_append.mp hx with hin | hnew
      · exact Or.inl hin
      · refine Or.inr ⟨image, a, st.rk, ?_⟩
        simpa using hnew
    · intro x hx
      rw [hl] at hx
      rcases List.mem_append.mp hx with hin | hnew
      · exact Or.inl hin
      · refine Or.inr ⟨image, a, st.rk, ?_⟩
        simpa using hnew
  · injection h with h2
    subst h2
    exact SegOk_refl cfg env rand _ hcrs

theorem processAsset_inl (cfg : Config) (env : String → TileInfo) (rand : Nat → Int → Int → Int)
    (image : String) (a : Asset) (st st' : RunState) (hcrs : CrsInv st)
    (h : processAsset cfg env rand image a st = Sum.inl st') :
    SegStop cfg env rand st st' := by
  unfold processAsset at h
  split at h
  · have hc2 : CrsInv { st with rk := st.rk + 2 } := hcrs
    obtain ⟨hd, hl, hck, hcap, hlast⟩ := afterAppend_inl cfg _ _ _ st' hc2 h
    refine ⟨?_, hck, ⟨?_, ?_⟩, hcap, hlast⟩
    · rw [hd]
      simp
    · intro x hx
      rw [hd] at hx
      rcases List.mem_append.mp hx with hin | hnew
      · exact Or.inl hin
      · refine Or.inr ⟨image, a, st.rk, ?_⟩
        simpa using hnew
    · intro x hx
      rw [hl] at hx
      rcases List.mem_append.mp hx with hin | hnew
      · exact Or.inl hin
      · refine Or.inr ⟨image, a, st.rk, ?_⟩
        simpa using hnew
  · simp at h

theorem processAssets_inr (cfg : Config) (env : String → TileInfo) (rand : Nat → Int → Int → Int)
    (image : String) :
    ∀ (as : List Asset) (st st' : RunState), CrsInv st →
      processAssets cfg env rand image as st = Sum.inr st' → SegOk cfg env rand st st'
  | [], st, st', hc, h => by
    unfold processAssets at h
    injection h with h2
    subst h2
    exact SegOk_refl cfg env rand st hc
  | a :: rest, st, st', hc, h => by
    unfold processAssets at h
    cases hpa : processAsset cfg env rand image a st with
    | inl stp =>
      rw [hpa] at h
      simp at h
    | inr stp =>
      rw [hpa] at h
      have h1 := processAsset_inr cfg env rand image a st stp hc hpa
      exact SegOk_trans cfg env rand st stp st' h1
        (processAssets_inr cfg env rand image rest stp st' h1.2.1 h)

theorem processAssets_inl (cfg : Config) (env : String → TileInfo) (rand : Nat → Int → Int → Int)
    (image : String) :
    ∀ (as : List Asset) (st st' : RunState), CrsInv st →
      processAssets cfg env rand image as st = Sum.inl st' → SegStop cfg env rand st st'
  | [], st, st', hc, h => by
    unfold processAssets at h
    simp at h
  | a :: rest, st, st', hc, h => by
    unfold processAssets at h
    cases hpa : processAsset cfg env rand image a st with
    | inl stp =>
      rw [hpa] at h
      injection h with h2
      subst h2
      exact processAsset_inl cfg env rand image a st stp hc hpa
    | inr stp =>
      rw [hpa] at h
      have h1 := processAsset_inr cfg env rand image a st stp hc hpa
      exact SegOk_stop cfg env rand st stp st' h1
        (processAssets_inl cfg env rand image rest stp st' h1.2.1 h)

theorem processImages_inr (cfg : Config) (env : String → TileInfo) (rand : Nat → Int → Int → Int)
    (joined : List (Asset × String)) :
    ∀ (images : List String) (st st' : RunState), CrsInv st →
      processImages cfg env rand joined images st = Sum.inr st' → SegOk cfg env rand st st'
  | [], st, st', hc, h => by
    unfold processImages at h
    injection h with h2
    subst h2
    exact SegOk_refl cfg env rand st hc
  | image :: rest, st, st', hc, h => by
    unfold processImages at h
    cases hpa : processAssets cfg env rand image (matchedAssets joined image) st with
    | inl stp =>
      rw [hpa] at h
      simp at h
    | inr stp =>
      rw [hpa] at h
      have h1 := processAssets_inr cfg env rand image (matchedAssets joined image) st stp hc hpa
      exact SegOk_trans cfg env rand st stp st' h1
        (processImages_inr cfg env rand joined rest stp st' h1.2.1 h)

theorem processImages_inl (cfg : Config) (env : String → TileInfo) (rand : Nat → Int → Int → Int)
    (joined : List (Asset × String)) :
    ∀ (images : List String) (st st' : RunState), CrsInv st →
      processImages cfg env rand joined images st = Sum.inl st' → SegStop cfg env rand st st'
  | [], st, st', hc, h => by
    unfold processImages at h
    simp at h
  | image :: rest, st, st', hc, h => by
    unfold processImages at h
    cases hpa : processAssets cfg env rand image (matchedAssets joined image) st with
    | inl stp =>
      rw [hpa] at h
      injection h with h2
      subst h2
      exact processAssets_inl cfg env rand image (matchedAssets joined image) st stp hc hpa
    | inr stp =>
      rw [hpa] at h
      have h1 := processAssets_inr cfg env rand image (matchedAssets joined image) st stp hc hpa
      exact SegOk_stop cfg env rand st stp st' h1
        (processImages_inl cfg env rand joined rest stp st' h1.2.1 h)

theorem make_examples_inl (cfg : Config) (env : String → TileInfo) (rand : Nat → Int → Int → Int)
    (gc : GeoPolygon → GeoPoint → Bool) (assets : List Asset) (coverage : List CoverageRecord)
    (st : RunState)
    (hpi : processImages cfg env rand (sjoinMatches gc assets coverage)
      (coverage.map (fun c => c.filename)) initState = Sum.inl st) :
    make_examples cfg env rand gc assets coverage =
      ⟨st.events, st.dataset, st.locals, none, true⟩ := by
  simp only [make_examples]
  rw [hpi]

theorem make_examples_inr (cfg : Config) (env : String → TileInfo) (rand : Nat → Int → Int → Int)
    (gc : GeoPolygon → GeoPoint → Bool) (assets : List Asset) (coverage : List CoverageRecord)
    (st : RunState)
    (hpi : processImages cfg env rand (sjoinMatches gc assets coverage)
      (coverage.map (fun c => c.filename)) initState = Sum.inr st) :
    make_examples cfg env rand gc assets coverage =
      ⟨st.events, st.dataset, st.locals, none, false⟩ := by
  simp only [make_examples]
  rw [hpi]

theorem tower_width_half : tower_width.fdiv 2 = 15 := by decide

theorem tower_height_half : tower_height.fdiv 2 = 12 := by decide

theorem randConst_spec (v : Int) : RandSpec (randConst v) := by
  intro n lo hi h
  unfold randConst
  split
  case isTrue hv => exact ⟨hv.1, hv.2⟩
  case isFalse hv => exact ⟨le_refl lo, h⟩

theorem joinPath_inj (path : String) : Function.Injective (joinPath path) := by
  intro a b h
  simp only [joinPath] at h
  have h2 := congrArg String.data h
  rw [String.data_append, String.data_append] at h2
  exact String.ext (List.append_cancel_left h2)

theorem make_examples_items (cfg : Config) (env : String → TileInfo)
    (rand : Nat → Int → Int → Int) (gc : GeoPolygon → GeoPoint → Bool)
    (assets : List Asset) (coverage : List CoverageRecord) :
    (∀ r ∈ (make_examples cfg env rand gc assets coverage).dataset,
      ∃ image a k, r = newRecord cfg env rand image a k) ∧
    (∀ g ∈ (make_examples cfg env rand gc assets coverage).locals,
      ∃ image a k, g = newLocal cfg env rand image a k) := by
  cases hpi : processImages cfg env rand (sjoinMatches gc assets coverage)
      (coverage.map (fun c => c.filename)) initState with
  | inl st =>
    have hs := processImages_inl cfg env rand _ _ initState st crsInv_init hpi
    obtain ⟨-, -, ⟨hd, hl⟩, -, -⟩ := hs
    rw [make_examples_inl cfg env rand gc assets coverage st hpi]
    constructor
    · intro r hr
      rcases hd r hr with hin | hnew
      · simp [initState] at hin
      · exact hnew
    · intro g hg
      rcases hl g hg with hin | hnew
      · simp [initState] at hin
      · exact hnew
  | inr st =>
    have hs := processImages_inr cfg env rand _ _ initState st crsInv_init hpi
    obtain ⟨-, -, -, hd, hl⟩ := hs
    rw [make_examples_inr cfg env rand gc assets coverage st hpi]
    constructor
    · intro r hr
      rcases hd r hr with hin | hnew
      · simp [initState] at hin
      · exact hnew
    · intro g hg
      rcases hl g hg with hin | hnew
      · simp [initState] at hin
      · exact hnew

/-! Claim theorems. -/

/-- C1 counterexample: a resumed run over a directory whose single tif
file is already present in the loaded index yields two records for that
file, not exactly one. -/
theorem indexer_run_cex :
    (((make_polygon_list info0 ["x.tif"] "d"
        (some [⟨joinPath "d" "x.tif", cornerPolygon corners0⟩])).map
      (fun r => r.filename)).count (joinPath "d" "x.tif")) = 2 ∧ (2 : Nat) ≠ 1 := by
  decide

/-- C1 (amended to fresh runs): a run of the Coverage Indexer that does
not resume from an existing index produces exactly the records of the
.tif files of the directory listing, in order; every record's footprint
is the polygon of the tile's four corners in (UL, UR, LR, LL) order, and
when the listing has no duplicate names each .tif file has exactly one
record. -/
theorem indexer_fresh_run (info : String → Corners) (listing : List String) (path : String)
    (hnd : listing.Nodup) :
    make_polygon_list info listing path none =
      (tifFiles path listing).map (fun f => ⟨f, cornerPolygon (info f)⟩) ∧
    (∀ r ∈ make_polygon_list info listing path none,
      r.geometry = cornerPolygon (info r.filename)) ∧
    (∀ f ∈ listing, endsTif f = true →
      ((make_polygon_list info listing path none).map (fun r => r.filename)).count
        (joinPath path f) = 1) := by
  have h1 : make_polygon_list info listing path none =
      (tifFiles path listing).map (fun f => ⟨f, cornerPolygon (info f)⟩) := rfl
  refine ⟨h1, ?_, ?_⟩
  · intro r hr
    rw [h1] at hr
    obtain ⟨f, hf, rfl⟩ := List.mem_map.mp hr
    rfl
  · intro f hf htif
    rw [h1, List.map_map]
    have hmapid : ((fun r => CoverageRecord.filename r) ∘
        (fun f => (⟨f, cornerPolygon (info f)⟩ : CoverageRecord))) = id := rfl
    rw [hmapid, List.map_id]
    have hnodtif : (tifFiles path listing).Nodup :=
      (List.Nodup.filter _ hnd).map (joinPath_inj path)
    have hmem : joinPath path f ∈ tifFiles path listing :=
      List.mem_map_of_mem _ (List.mem_filter.mpr ⟨hf, htif⟩)
    exact List.count_eq_one_of_mem hnodtif hmem

/-- C1 witness: concrete fresh run over a two-entry listing. -/
theorem indexer_fresh_run_witness :
    (["a.tif", "b.png"] : List String).Nodup ∧
    ((make_polygon_list info0 ["a.tif", "b.png"] "imgs" none).map
      (fun r => r.filename)).count (joinPath "imgs" "a.tif") = 1 :=
  ⟨by decide,
   (indexer_fresh_run info0 ["a.tif", "b.png"] "imgs" (by decide)).2.2 "a.tif"
     (by decide) (by decide)⟩

/-- C7 counterexample: resuming from an index that already holds the
directory's tif file duplicates its filename, violating appears-at-most-
once. -/
theorem resume_duplicates_cex :
    ¬ ((((make_polygon_list info0 ["a.tif"] "imgs" (some resume0)).map
      (fun r => r.filename)).count (joinPath "imgs" "a.tif")) ≤ 1) := by
  decide

/-- C7 (amended): a resumed run appends one record per .tif file of the
directory regardless of the loaded index, so each filename occurs its
count in the loaded index plus its count among the freshly joined tif
paths (the latter at most one when the listing has no duplicates);
filenames already present in the loaded index are therefore duplicated
rather than kept unique. -/
theorem resume_appends_all (info : String → Corners) (listing : List String) (path : String)
    (rs : List CoverageRecord) (hnd : listing.Nodup) :
    make_polygon_list info listing path (some rs) =
      rs ++ (tifFiles path listing).map (fun f => ⟨f, cornerPolygon (info f)⟩) ∧
    (∀ fl, ((make_polygon_list info listing path (some rs)).map (fun r => r.filename)).count fl =
      ((rs.map (fun r => r.filename)).count fl) + ((tifFiles path listing).count fl)) ∧
    (∀ fl, (tifFiles path listing).count fl ≤ 1) := by
  have h1 : make_polygon_list info listing path (some rs) =
      rs ++ (tifFiles path listing).map (fun f => ⟨f, cornerPolygon (info f)⟩) := rfl
  have hnodtif : (tifFiles path listing).Nodup :=
    (List.Nodup.filter _ hnd).map (joinPath_inj path)
  refine ⟨h1, ?_, ?_⟩
  · intro fl
    rw [h1, List.map_append, List.count_append, List.map_map]
    have hmapid : ((fun r => CoverageRecord.filename r) ∘
        (fun f => (⟨f, cornerPolygon (info f)⟩ : CoverageRecord))) = id := rfl
    rw [hmapid, List.map_id]
  · intro fl
    exact List.nodup_iff_count_le_one.mp hnodtif fl

/-- C7 witness: concrete resumed run. -/
theorem resume_appends_all_witness :
    (["a.tif"] : List String).Nodup ∧
    ((make_polygon_list info0 ["a.tif"] "imgs" (some resume0)).map
      (fun r => r.filename)).count (joinPath "imgs" "a.tif") =
      ((resume0.map (fun r => r.filename)).count (joinPath "imgs" "a.tif")) +
      ((tifFiles "imgs" ["a.tif"]).count (joinPath "imgs" "a.tif")) :=
  ⟨by decide,
   (resume_appends_all info0 ["a.tif"] "imgs" resume0 (by decide)).2.1 (joinPath "imgs" "a.tif")⟩

/-- C8: when ReadAsArray fails for an asset, the asset is skipped with no
saved image and no appended record (the state is unchanged apart from the
two consumed randint draws), and processing continues with the remaining
assets. -/
theorem failed_read_skips (cfg : Config) (env : String → TileInfo)
    (rand : Nat → Int → Int → Int) (image : String) (a : Asset) (rest : List Asset)
    (st : RunState)
    (hfail : (env image).readOk (windowX cfg env rand image a st.rk)
      (windowY cfg env rand image a st.rk) cfg.width cfg.height = false) :
    processAsset cfg env rand image a st = Sum.inr { st with rk := st.rk + 2 } ∧
    processAssets cfg env rand image (a :: rest) st =
      processAssets cfg env rand image rest { st with rk := st.rk + 2 } := by
  have h1 : processAsset cfg env rand image a st = Sum.inr { st with rk := st.rk + 2 } := by
    unfold processAsset
    rw [hfail]
    simp
  refine ⟨h1, ?_⟩
  simp only [processAssets, h1]

/-- C8 witness: concrete asset whose block read fails. -/
theorem failed_read_skips_witness :
    ((envF "t.tif").readOk (windowX cfg512 envF (randConst 0) "t.tif" asset0 initState.rk)
      (windowY cfg512 envF (randConst 0) "t.tif" asset0 initState.rk) cfg512.width
      cfg512.height = false) ∧
    processAssets cfg512 envF (randConst 0) "t.tif" [asset0] initState =
      processAssets cfg512 envF (randConst 0) "t.tif" [] { initState with rk := initState.rk + 2 } :=
  ⟨by decide,
   (failed_read_skips cfg512 envF (randConst 0) "t.tif" asset0 [] initState (by decide)).2⟩

/-- C9: there are admissible random offsets for which the recorded
bounding box extends outside the crop window's own pixel bounds: with the
default 512-wide window, the draw stream that yields x offset 247
(admissible, as 247 < offHigh 512 = 248) produces a record with
lr_x = 518 > 512. -/
theorem bbox_exceeds_window :
    RandSpec (randConst 247) ∧
    ∃ r ∈ (run512 247).dataset, cfg512.width < r.lr_x :=
  ⟨randConst_spec 247, by decide⟩

/-- C10: make_examples returns None on every execution path, both when it
stops at max_length and when it exhausts its input; the accumulated
dataset is never returned. -/
theorem returns_none (cfg : Config) (env : String → TileInfo) (rand : Nat → Int → Int → Int)
    (gc : GeoPolygon → GeoPoint → Bool) (assets : List Asset)
    (coverage : List CoverageRecord) :
    (make_examples cfg env rand gc assets coverage).ret = none := by
  simp only [make_examples]
  split <;> rfl

/-- C2 counterexample: the produced record of a concrete run has a
bounding box 30 pixels wide but only 24 pixels high (tower_height // 2 is
added and subtracted, giving 2 * 12 = 24), refuting the claimed 25. -/
theorem bbox_height_cex :
    ((run512 0).dataset.map (fun r => (r.lr_x - r.ul_x, r.lr_y - r.ul_y))) = [(30, 24)] ∧
    ((24 : Int), (25 : Int)).1 ≠ ((24 : Int), (25 : Int)).2 := by
  decide

/-- C2 (amended): every produced Example Record's bounding box is exactly
30 pixels wide and 24 pixels high (not 25: the code uses
tower_height // 2 = 12 on both sides of the centre), and it is centred on
the crop's nominal centre (width // 2, height // 2) plus the random
offset applied to that crop. -/
theorem bbox_shape (cfg : Config) (env : String → TileInfo) (rand : Nat → Int → Int → Int)
    (gc : GeoPolygon → GeoPoint → Bool) (assets : List Asset) (coverage : List CoverageRecord)
    (hrs : RandSpec rand) (hx : offLow cfg.width < offHigh cfg.width)
    (hy : offLow cfg.height < offHigh cfg.height) :
    ∀ r ∈ (make_examples cfg env rand gc assets coverage).dataset,
      r.lr_x - r.ul_x = 30 ∧ r.lr_y - r.ul_y = 24 ∧
      ∃ offx offy, possibleOffset cfg.width offx ∧ possibleOffset cfg.height offy ∧
        r.ul_x + tower_width.fdiv 2 = cfg.width.fdiv 2 + offx ∧
        r.lr_x - tower_width.fdiv 2 = cfg.width.fdiv 2 + offx ∧
        r.ul_y + tower_height.fdiv 2 = cfg.height.fdiv 2 + offy ∧
        r.lr_y - tower_height.fdiv 2 = cfg.height.fdiv 2 + offy := by
  intro r hr
  obtain ⟨image, a, k, rfl⟩ := (make_examples_items cfg env rand gc assets coverage).1 r hr
  have hox := hrs k (offLow cfg.width) (offHigh cfg.width) hx
  have hoy := hrs (k + 1) (offLow cfg.height) (offHigh cfg.height) hy
  refine ⟨?_, ?_, offsetX cfg rand k, offsetY cfg rand k, ⟨hox.1, hox.2⟩, ⟨hoy.1, hoy.2⟩,
    ?_, ?_, ?_, ?_⟩
  all_goals simp [newRecord, bboxOf, tower_width_half, tower_height_half]

/-- C2 witness: the amended statement applied to a concrete run. -/
theorem bbox_shape_witness :
    RandSpec (randConst 0) ∧ offLow cfg512.width < offHigh cfg512.width ∧
    offLow cfg512.height < offHigh cfg512.height ∧
    ∀ r ∈ (run512 0).dataset,
      r.lr_x - r.ul_x = 30 ∧ r.lr_y - r.ul_y = 24 ∧
      ∃ offx offy, possibleOffset cfg512.width offx ∧ possibleOffset cfg512.height offy ∧
        r.ul_x + tower_width.fdiv 2 = cfg512.width.fdiv 2 + offx ∧
        r.lr_x - tower_width.fdiv 2 = cfg512.width.fdiv 2 + offx ∧
        r.ul_y + tower_height.fdiv 2 = cfg512.height.fdiv 2 + offy ∧
        r.lr_y - tower_height.fdiv 2 = cfg512.height.fdiv 2 + offy :=
  ⟨randConst_spec 0, by decide, by decide,
   bbox_shape cfg512 env0 (randConst 0) containsAll [asset0] [cov0] (randConst_spec 0)
     (by decide) (by decide)⟩

/-- C3 counterexample: for the default size 512 the claimed inclusive
upper endpoint size/2 - 8 = 248 is not a possible randint draw (numpy's
high bound is exclusive); 247 is the largest possible value. -/
theorem offset_endpoint_cex :
    possibleOffset 512 247 ∧ ¬ possibleOffset 512 248 := by
  decide

/-- C3 (amended): every offset drawn for a produced example lies in the
half-open interval [offLow size, offHigh size) =
[-size//2 + 8, size//2 - 8), the upper endpoint excluded; conversely
every integer of that half-open interval can be drawn at the randint call
site by an admissible stream. -/
theorem offset_support :
    (∀ (cfg : Config) (env : String → TileInfo) (rand : Nat → Int → Int → Int)
      (gc : GeoPolygon → GeoPoint → Bool) (assets : List Asset)
      (coverage : List CoverageRecord), RandSpec rand →
      offLow cfg.width < offHigh cfg.width → offLow cfg.height < offHigh cfg.height →
      ∀ g ∈ (make_examples cfg env rand gc assets coverage).locals,
        possibleOffset cfg.width (g.lx - cfg.width.fdiv 2) ∧
        possibleOffset cfg.height (g.ly - cfg.height.fdiv 2)) ∧
    (∀ (cfg : Config) (k : Nat) (v : Int), possibleOffset cfg.width v →
      ∃ rand, RandSpec rand ∧ offsetX cfg rand k = v) ∧
    (∀ (cfg : Config) (k : Nat) (v : Int), possibleOffset cfg.height v →
      ∃ rand, RandSpec rand ∧ offsetY cfg rand k = v) := by
  refine ⟨?_, ?_, ?_⟩
  · intro cfg env rand gc assets coverage hrs hx hy g hg
    obtain ⟨image, a, k, rfl⟩ := (make_examples_items cfg env rand gc assets coverage).2 g hg
    have hox := hrs k (offLow cfg.width) (offHigh cfg.width) hx
    have hoy := hrs (k + 1) (offLow cfg.height) (offHigh cfg.height) hy
    have hlx : (newLocal cfg env rand image a k).lx - cfg.width.fdiv 2 = offsetX cfg rand k := by
      simp [newLocal, windowX]
      ring
    have hly : (newLocal cfg env rand image a k).ly - cfg.height.fdiv 2 = offsetY cfg rand k := by
      simp [newLocal, windowY]
      ring
    rw [hlx, hly]
    exact ⟨⟨hox.1, hox.2⟩, ⟨hoy.1, hoy.2⟩⟩
  · intro cfg k v hv
    refine ⟨randConst v, randConst_spec v, ?_⟩
    simp only [offsetX, randConst]
    rw [if_pos ⟨hv.1, hv.2⟩]
  · intro cfg k v hv
    refine ⟨randConst v, randConst_spec v, ?_⟩
    simp only [offsetY, randConst]
    rw [if_pos ⟨hv.1, hv.2⟩]

/-- C3 witness: both endpoints of the half-open interval for size 512. -/
theorem offset_support_witness :
    possibleOffset 512 (-248) ∧
    (∃ rand, RandSpec rand ∧ offsetX cfg512 rand 0 = -248) ∧
    (∃ rand, RandSpec rand ∧ offsetY cfg512 rand 0 = 247) :=
  ⟨by decide, offset_support.2.1 cfg512 0 (-248) (by decide),
   offset_support.2.2 cfg512 0 247 (by decide)⟩

/-- C4 counterexample: with the odd configured width 511 the drawn offset
-248 = -511//2 + 8 is admissible and puts the asset at local x = 7,
outside the claimed [8, width - 8] margin. -/
theorem margin_odd_width_cex :
    (run511.locals.map (fun g => g.lx)) = [7] ∧ ¬ (8 ≤ (7 : Int)) := by
  decide

/-- C4 (amended to even window sizes): for even configured width and
height, every successful crop reads a block of exactly the configured
width x height and the asset's pixel position lies within
[8, width - 8] x [8, height - 8] of the window's local frame (for odd
sizes the lower margin can be 7, as the counterexample shows). -/
theorem crop_window_margins (cfg : Config) (env : String → TileInfo)
    (rand : Nat → Int → Int → Int) (gc : GeoPolygon → GeoPoint → Bool)
    (assets : List Asset) (coverage : List CoverageRecord)
    (hrs : RandSpec rand) (hx : offLow cfg.width < offHigh cfg.width)
    (hy : offLow cfg.height < offHigh cfg.height)
    (hw : 2 ∣ cfg.width) (hh : 2 ∣ cfg.height) :
    ∀ g ∈ (make_examples cfg env rand gc assets coverage).locals,
      g.w = cfg.width ∧ g.h = cfg.height ∧
      8 ≤ g.lx ∧ g.lx ≤ cfg.width - 8 ∧ 8 ≤ g.ly ∧ g.ly ≤ cfg.height - 8 := by
  intro g hg
  obtain ⟨image, a, k, rfl⟩ := (make_examples_items cfg env rand gc assets coverage).2 g hg
  have hox : offLow cfg.width ≤ offsetX cfg rand k ∧ offsetX cfg rand k < offHigh cfg.width :=
    hrs k (offLow cfg.width) (offHigh cfg.width) hx
  have hoy : offLow cfg.height ≤ offsetY cfg rand k ∧ offsetY cfg rand k < offHigh cfg.height :=
    hrs (k + 1) (offLow cfg.height) (offHigh cfg.height) hy
  have hlx : (newLocal cfg env rand image a k).lx = cfg.width.fdiv 2 + offsetX cfg rand k := by
    simp [newLocal, windowX]
    ring
  have hly : (newLocal cfg env rand image a k).ly = cfg.height.fdiv 2 + offsetY cfg rand k := by
    simp [newLocal, windowY]
    ring
  simp only [offLow, offHigh] at hox hoy
  rw [fdiv_two] at hlx hly
  rw [fdiv_two, fdiv_two] at hox hoy
  refine ⟨rfl, rfl, ?_, ?_, ?_, ?_⟩
  all_goals simp only [hlx, hly]
  all_goals omega

/-- C4 witness: the amended statement applied to a concrete run with the
default even 512 x 512 window. -/
theorem crop_window_margins_witness :
    RandSpec (randConst 0) ∧ (2 ∣ cfg512.width) ∧ (2 ∣ cfg512.height) ∧
    ∀ g ∈ (run512 0).locals,
      g.w = cfg512.width ∧ g.h = cfg512.height ∧
      8 ≤ g.lx ∧ g.lx ≤ cfg512.width - 8 ∧ 8 ≤ g.ly ∧ g.ly ≤ cfg512.height - 8 :=
  ⟨randConst_spec 0, by decide, by decide,
   crop_window_margins cfg512 env0 (randConst 0) containsAll [asset0] [cov0]
     (randConst_spec 0) (by decide) (by decide) (by decide) (by decide)⟩

/-- C5: if a run hits max_length (capHit), then max_length is a set cap m,
the final in-memory dataset has exactly m records, and the very last
observable event of the run is the dataset write of those m records to the
fixed checkpoint file: the run stops at that instant, processing nothing
further. -/
theorem cap_terminates_run (cfg : Config) (env : String → TileInfo)
    (rand : Nat → Int → Int → Int) (gc : GeoPolygon → GeoPoint → Bool)
    (assets : List Asset) (coverage : List CoverageRecord)
    (h : (make_examples cfg env rand gc assets coverage).capHit = true) :
    ∃ m, cfg.max_length = some m ∧
      ((make_examples cfg env rand gc assets coverage).dataset.length : Int) = m ∧
      (make_examples cfg env rand gc assets coverage).events.getLast? =
        some (Event.writeDataset (checkpointName cfg)
          (make_examples cfg env rand gc assets coverage).dataset.length
          (decide (50 ≤ (make_examples cfg env rand gc assets coverage).dataset.length))) := by
  cases hpi : processImages cfg env rand (sjoinMatches gc assets coverage)
      (coverage.map (fun c => c.filename)) initState with
  | inr st =>
    rw [make_examples_inr cfg env rand gc assets coverage st hpi] at h
    simp at h
  | inl st =>
    have hs := processImages_inl cfg env rand _ _ initState st crsInv_init hpi
    obtain ⟨-, -, -, hcap, hlast⟩ := hs
    simp only [make_examples_inl cfg env rand gc assets coverage st hpi]
    unfold capReached at hcap
    cases hml : cfg.max_length with
    | none =>
      rw [hml] at hcap
      simp at hcap
    | some m =>
      rw [hml] at hcap
      simp only [beq_iff_eq] at hcap
      exact ⟨m, rfl, hcap, hlast⟩

/-- C5 witness: concrete run with max_length 1 that hits the cap. -/
theorem cap_terminates_run_witness :
    (run512 0).capHit = true ∧
    ∃ m, cfg512.max_length = some m ∧
      ((run512 0).dataset.length : Int) = m ∧
      (run512 0).events.getLast? =
        some (Event.writeDataset (checkpointName cfg512) (run512 0).dataset.length
          (decide (50 ≤ (run512 0).dataset.length))) :=
  ⟨by decide,
   cap_terminates_run cfg512 env0 (randConst 0) containsAll [asset0] [cov0] (by decide)⟩

/-- C6: the dataset writes of a run are exactly one write per multiple of
50 reached by the in-memory length (in order, tagged EPSG:4326, at the
fixed checkpoint name, with on-disk count equal to the in-memory count at
that instant), followed by one final write of the whole dataset exactly
when the run hits max_length; in particular a run that ends by exhausting
its input performs no write for a trailing partial batch. -/
theorem checkpoint_trace (cfg : Config) (env : String → TileInfo)
    (rand : Nat → Int → Int → Int) (gc : GeoPolygon → GeoPoint → Bool)
    (assets : List Asset) (coverage : List CoverageRecord) :
    checkpointEvents (make_examples cfg env rand gc assets coverage).events =
      (mults50 0 (make_examples cfg env rand gc assets coverage).dataset.length).map
        (ckptEntry cfg) ++
      (if (make_examples cfg env rand gc assets coverage).capHit then
        [ckptEntry cfg (make_examples cfg env rand gc assets coverage).dataset.length]
      else []) ∧
    (∀ n, n ∈ mults50 0 (make_examples cfg env rand gc assets coverage).dataset.length ↔
      0 < n ∧ n ≤ (make_examples cfg env rand gc assets coverage).dataset.length ∧
        n % 50 = 0) ∧
    (∀ n, 50 ≤ n → ckptEntry cfg n = (checkpointName cfg, n, true)) := by
  refine ⟨?_, ?_, ?_⟩
  · cases hpi : processImages cfg env rand (sjoinMatches gc assets coverage)
        (coverage.map (fun c => c.filename)) initState with
    | inl st =>
      have hs := processImages_inl cfg env rand _ _ initState st crsInv_init hpi
      obtain ⟨-, hck, -, -, -⟩ := hs
      simp only [make_examples_inl cfg env rand gc assets coverage st hpi, if_true]
      simpa [initState, checkpointEvents] using hck
    | inr st =>
      have hs := processImages_inr cfg env rand _ _ initState st crsInv_init hpi
      obtain ⟨-, -, hck, -⟩ := hs
      simp only [make_examples_inr cfg env rand gc assets coverage st hpi, if_false]
      simpa [initState, checkpointEvents] using hck
  · intro n
    exact mem_mults50 0 _ n
  · intro n hn
    simp [ckptEntry, decide_eq_true hn]

/-- C6 witness: the per-instance facts of the trace characterisation at a
concrete run. -/
theorem checkpoint_trace_witness :
    (50 ∈ mults50 0 (run512 0).dataset.length ↔
      0 < 50 ∧ 50 ≤ (run512 0).dataset.length ∧ 50 % 50 = 0) ∧
    ckptEntry cfg512 50 = (checkpointName cfg512, 50, true) :=
  ⟨(checkpoint_trace cfg512 env0 (randConst 0) containsAll [asset0] [cov0]).2.1 50,
   (checkpoint_trace cfg512 env0 (randConst 0) containsAll [asset0] [cov0]).2.2 50 (by decide)⟩
